import Mathlib

/-
  Verification of the xgolib build orchestration library (package xgolib plus
  its util helpers) against its natural-language specification.

  The Go sources are shallowly embedded as pure Lean functions.  Ambient
  effects (filesystem stat results, symlink resolution, network fetch
  outcomes, process behaviour) are passed in explicitly as parameters or as
  small outcome types, so that every definition mirrors the control flow of
  the corresponding Go function over those inputs.
-/

namespace Xgolib

/-- Unix path join as used by the Go code via filepath.Join for the simple
two-component cases appearing in the sources (no trailing separators in the
inputs the code produces). -/
def joinPath (a b : String) : String := a ++ "/" ++ b

/-! ## args.go : BuildArgs, Args and their SetDefaults methods -/

/-- BuildArgs from args.go.  Field defaults are the Go zero values. -/
structure BuildArgs where
  Verbose : Bool := false
  Steps : Bool := false
  Race : Bool := false
  Tags : String := ""
  LdFlags : String := ""
  Mode : String := ""
  VCS : String := ""
  TrimPath : Bool := false
deriving DecidableEq, Repr

/-- BuildArgs.SetDefaults from args.go (pure version of the in-place mutation). -/
def BuildArgs.SetDefaults (a : BuildArgs) : BuildArgs :=
  if a.Mode = "" then { a with Mode := "default" } else a

/-- Args from args.go.  The DepsCache field is referenced by StartBuildCtx in
xgo.go (args.DepsCache).  Field defaults are the Go zero values. -/
structure Args where
  Repository : String := ""
  GoVersion : String := ""
  GoProxy : String := ""
  SrcPackage : String := ""
  SrcRemote : String := ""
  SrcBranch : String := ""
  OutPrefix : String := ""
  OutFolder : String := ""
  CrossDeps : String := ""
  CrossArgs : String := ""
  Targets : List String := []
  DockerRepo : String := ""
  DockerImage : String := ""
  DepsCache : String := ""
  Build : BuildArgs := {}
deriving DecidableEq, Repr

/-- Args.SetDefaults from args.go, mirroring the statement order of the Go
method body. -/
def Args.SetDefaults (a : Args) : Args :=
  let a1 := if a.GoVersion = "" then { a with GoVersion := "latest" } else a
  let a2 := if a1.Targets = [] then { a1 with Targets := ["*/*"] } else a1
  let a3 := if a2.GoProxy = "" then { a2 with GoProxy := "https://proxy.golang.org,direct" } else a2
  { a3 with Build := a3.Build.SetDefaults }

/-- Full characterisation of Args.SetDefaults as a single record expression. -/
theorem Args.SetDefaults_eq (a : Args) :
    a.SetDefaults =
      { a with
        GoVersion := if a.GoVersion = "" then "latest" else a.GoVersion,
        Targets := if a.Targets = [] then ["*/*"] else a.Targets,
        GoProxy := if a.GoProxy = "" then "https://proxy.golang.org,direct" else a.GoProxy,
        Build := a.Build.SetDefaults } := by
  unfold Args.SetDefaults
  split <;> split <;> split <;> simp_all

/-! ## xgo.go : StartBuildCtx entry phase (sentinel, cache path, preconditions) -/

/-- The docker distribution constant from xgo.go. -/
def dockerDist : String := "ghcr.io/crazy-max/xgo"

/-- Outcome of the entry phase of StartBuildCtx up to the dispatch between
the contained (in-xgo) execution path and the docker path. -/
inductive StartOutcome
  | failed (msg : String)
  | contained (depsCache : String)
  | docker (depsCache : String) (image : String)
deriving DecidableEq, Repr

/-- Image selection from StartBuildCtx (xgo.go lines 91-96). -/
def selectImage (a : Args) : String :=
  if a.DockerImage ≠ "" then a.DockerImage
  else if a.DockerRepo ≠ "" then a.DockerRepo ++ ":" ++ a.GoVersion
  else dockerDist ++ ":" ++ a.GoVersion

/-- Entry phase of StartBuildCtx (xgo.go lines 62-108): defaulting, the
XGO_IN_XGO sentinel, the dependency-cache root selection, the docker
liveness probe and the repository precondition.  xgoInXgo is the value of
the test XGO_IN_XGO == "1"; tempDir stands for os.TempDir(); dockerOk is
the success of the docker version probe. -/
def startPhase (xgoInXgo : Bool) (tempDir : String) (dockerOk : Bool) (a0 : Args) :
    StartOutcome :=
  let a := a0.SetDefaults
  let depsCache :=
    if xgoInXgo then "/deps-cache"
    else if a.DepsCache = "" then joinPath tempDir "xgo-cache" else a.DepsCache
  if xgoInXgo then StartOutcome.contained depsCache
  else if ¬ dockerOk then StartOutcome.failed "failed to check docker installation"
  else if a.Repository = "" then StartOutcome.failed "go import path is not set"
  else StartOutcome.docker depsCache (selectImage a)

/-- C6: defaulting at entry maps an empty target list to exactly the single
wildcard entry, an unset image version to latest, an unset proxy to the
default chain, an unset build mode to default, and leaves already-set
fields (and all other fields) unchanged. -/
theorem c6_defaults (a : Args) :
    (a.SetDefaults).Targets = (if a.Targets = [] then ["*/*"] else a.Targets) ∧
    (a.SetDefaults).GoVersion = (if a.GoVersion = "" then "latest" else a.GoVersion) ∧
    (a.SetDefaults).GoProxy =
      (if a.GoProxy = "" then "https://proxy.golang.org,direct" else a.GoProxy) ∧
    (a.SetDefaults).Build.Mode = (if a.Build.Mode = "" then "default" else a.Build.Mode) ∧
    (a.SetDefaults).Repository = a.Repository ∧
    (a.SetDefaults).SrcPackage = a.SrcPackage ∧
    (a.SetDefaults).SrcRemote = a.SrcRemote ∧
    (a.SetDefaults).SrcBranch = a.SrcBranch ∧
    (a.SetDefaults).OutPrefix = a.OutPrefix ∧
    (a.SetDefaults).OutFolder = a.OutFolder ∧
    (a.SetDefaults).CrossDeps = a.CrossDeps ∧
    (a.SetDefaults).CrossArgs = a.CrossArgs ∧
    (a.SetDefaults).DockerRepo = a.DockerRepo ∧
    (a.SetDefaults).DockerImage = a.DockerImage ∧
    (a.SetDefaults).DepsCache = a.DepsCache ∧
    (a.SetDefaults).Build.Verbose = a.Build.Verbose ∧
    (a.SetDefaults).Build.Steps = a.Build.Steps ∧
    (a.SetDefaults).Build.Race = a.Build.Race ∧
    (a.SetDefaults).Build.Tags = a.Build.Tags ∧
    (a.SetDefaults).Build.LdFlags = a.Build.LdFlags ∧
    (a.SetDefaults).Build.VCS = a.Build.VCS ∧
    (a.SetDefaults).Build.TrimPath = a.Build.TrimPath := by
  rw [Args.SetDefaults_eq]
  unfold BuildArgs.SetDefaults
  by_cases hm : a.Build.Mode = "" <;> simp [hm]

/-- C10: when the in-container sentinel is set, the empty-Repository
precondition (and the docker checks) are not enforced and the cache root is
forced to /deps-cache regardless of the caller-supplied cache path; on the
non-contained path the same empty Repository is rejected. -/
theorem c10_contained_no_precondition (tempDir : String) (dockerOk : Bool) (a : Args)
    (h : a.Repository = "") :
    startPhase true tempDir dockerOk a = StartOutcome.contained "/deps-cache" ∧
    startPhase false tempDir true a = StartOutcome.failed "go import path is not set" := by
  have hrep : (a.SetDefaults).Repository = a.Repository := by
    rw [Args.SetDefaults_eq]
  constructor
  · rfl
  · unfold startPhase
    simp [hrep, h]

/-- Witness for c10 at a concrete request whose caller-supplied cache path
is non-empty, showing it is ignored on the contained path. -/
theorem c10_contained_no_precondition_witness :
    ({ Repository := "", DepsCache := "/custom-cache" } : Args).Repository = "" ∧
    startPhase true "/tmp" false { Repository := "", DepsCache := "/custom-cache" } =
      StartOutcome.contained "/deps-cache" :=
  ⟨rfl, (c10_contained_no_precondition "/tmp" false
    { Repository := "", DepsCache := "/custom-cache" } rfl).1⟩

/-! ## xgo.go : dependency cache population (StartBuildCtx lines 110-149)

String helpers are implemented over the underlying character lists so that
the kernel can evaluate them on concrete inputs. -/

/-- Split a character list on every occurrence of a separator character,
as strings.Split with a one-character separator does. -/
def splitOnChar (sep : Char) : List Char → List (List Char)
  | [] => [[]]
  | x :: xs =>
    match splitOnChar sep xs with
    | [] => [[]]
    | h :: t => if x = sep then [] :: h :: t else (x :: h) :: t

/-- strings.TrimSpace: strip leading and trailing whitespace. -/
def trimSpace (s : String) : String :=
  String.mk (((s.data.dropWhile Char.isWhitespace).reverse.dropWhile
    Char.isWhitespace).reverse)

/-- filepath.Base for the URL shapes the code handles: the last
slash-separated segment. -/
def filepathBase (s : String) : String :=
  String.mk ((splitOnChar '/' s.data).getLastD s.data)

/-- strings.Split on a single space, as used for the CrossDeps list. -/
def splitSpaces (s : String) : List String :=
  (splitOnChar ' ' s.data).map String.mk

/-- Outcome of the network retrieval and body copy for one URL, standing for
the behaviour of http.Get plus io.Copy. -/
inductive FetchOutcome
  | ok
  | getErr
  | copyErr
deriving DecidableEq, Repr

/-- Observable filesystem and trace events of the cache loop. -/
inductive CacheEvent
  | skip (path : String)
  | create (path : String)
  | fetch (url : String)
deriving DecidableEq, Repr

/-- Cache state: the set of files existing under the filesystem (os.Stat
succeeds exactly on members of files) and the ordered event trace. -/
structure CacheState where
  files : List String
  events : List CacheEvent
deriving DecidableEq, Repr

/-- One iteration of the dependency loop in StartBuildCtx (lines 116-147):
stat the destination; on a hit, trace a skip; otherwise create the
destination file, then perform the retrieval, propagating a fetch or copy
failure as a fatal error while leaving the created file in place. -/
def processDep (root : String) (net : String → FetchOutcome) (st : CacheState)
    (url : String) : CacheState × Option String :=
  let path := joinPath root (filepathBase url)
  if st.files.contains path then
    ({ st with events := st.events ++ [CacheEvent.skip path] }, none)
  else
    let st1 : CacheState :=
      { files := st.files ++ [path],
        events := st.events ++ [CacheEvent.create path, CacheEvent.fetch url] }
    match net url with
    | FetchOutcome.ok => (st1, none)
    | FetchOutcome.getErr => (st1, some "failed to retrieve dependency")
    | FetchOutcome.copyErr => (st1, some "failed to download dependency")

/-- The dependency loop over the already-split list (lines 115-148):
trim each entry, skip empty ones, abort on the first fatal error. -/
def processDeps (root : String) (net : String → FetchOutcome) :
    CacheState → List String → CacheState × Option String
  | st, [] => (st, none)
  | st, d :: rest =>
    let url := trimSpace d
    if url.length = 0 then processDeps root net st rest
    else
      match processDep root net st url with
      | (st1, none) => processDeps root net st1 rest
      | (st1, some e) => (st1, some e)

/-- Cache population for a CrossDeps string: split on single spaces as
strings.Split does, then run the loop. -/
def populateCache (root : String) (net : String → FetchOutcome) (crossDeps : String)
    (st : CacheState) : CacheState × Option String :=
  processDeps root net st (splitSpaces crossDeps)

theorem contains_append_self (l : List String) (a : String) :
    (l ++ [a]).contains a = true := by
  induction l with
  | nil => simp
  | cons x xs ih => simp [List.contains_cons, ih]

/-- C2: when the file named after the last URL segment already exists under
the cache root, the loop body emits only a skip trace, fetches nothing and
creates nothing; and a duplicate URL later in the list is a no-op cache hit
after the first entry completes. -/
theorem c2_cache_hit (root u1 u2 : String) (net : String → FetchOutcome)
    (st1 st2 : CacheState)
    (h1 : st1.files.contains (joinPath root (filepathBase u1)) = true)
    (h2 : st2.files.contains (joinPath root (filepathBase u2)) = false)
    (ht : trimSpace u2 = u2) (hl : u2.length ≠ 0)
    (hnet : net u2 = FetchOutcome.ok) :
    processDep root net st1 u1 =
      ({ st1 with
          events := st1.events ++ [CacheEvent.skip (joinPath root (filepathBase u1))] },
        none) ∧
    processDeps root net st2 [u2, u2] =
      ({ files := st2.files ++ [joinPath root (filepathBase u2)],
         events := st2.events ++
           [CacheEvent.create (joinPath root (filepathBase u2)),
            CacheEvent.fetch u2,
            CacheEvent.skip (joinPath root (filepathBase u2))] }, none) := by
  constructor
  · simp only [processDep]
    rw [if_pos h1]
  · simp only [processDeps, processDep, ht]
    rw [if_neg hl, if_neg (by simpa using h2), hnet]
    simp only []
    rw [if_neg hl, if_pos (contains_append_self st2.files _)]
    simp [List.append_assoc]

/-- Witness for c2 at concrete inputs, matching the spec scenario with the
duplicated URL http://x/a.tgz. -/
theorem c2_cache_hit_witness :
    (({ files := ["/cache/a.tgz"], events := [] } : CacheState)).files.contains
      (joinPath "/cache" (filepathBase "http://x/a.tgz")) = true ∧
    (({ files := [], events := [] } : CacheState)).files.contains
      (joinPath "/cache" (filepathBase "http://x/a.tgz")) = false ∧
    trimSpace "http://x/a.tgz" = "http://x/a.tgz" ∧
    ("http://x/a.tgz").length ≠ 0 ∧
    processDeps "/cache" (fun _ => FetchOutcome.ok)
        { files := [], events := [] } ["http://x/a.tgz", "http://x/a.tgz"] =
      ({ files := [] ++ [joinPath "/cache" (filepathBase "http://x/a.tgz")],
         events := [] ++
           [CacheEvent.create (joinPath "/cache" (filepathBase "http://x/a.tgz")),
            CacheEvent.fetch "http://x/a.tgz",
            CacheEvent.skip (joinPath "/cache" (filepathBase "http://x/a.tgz"))] },
        none) :=
  ⟨by decide, by decide, by decide, by decide,
    (c2_cache_hit "/cache" "http://x/a.tgz" "http://x/a.tgz"
      (fun _ => FetchOutcome.ok)
      { files := ["/cache/a.tgz"], events := [] }
      { files := [], events := [] }
      (by decide) (by decide) (by decide) (by decide) rfl).2⟩

/-- C3: for a URL not yet cached, the destination file is created before the
retrieval begins (the create event precedes the fetch event), and a fetch or
copy failure returns a fatal error that aborts the rest of the list while
the created (possibly truncated) file stays under the cache root. -/
theorem c3_cache_failure_leaves_file (root url : String) (net : String → FetchOutcome)
    (st : CacheState) (rest : List String)
    (hmem : st.files.contains (joinPath root (filepathBase url)) = false)
    (ht : trimSpace url = url) (hl : url.length ≠ 0)
    (hfail : net url = FetchOutcome.getErr ∨ net url = FetchOutcome.copyErr) :
    (processDep root net st url).1.files =
      st.files ++ [joinPath root (filepathBase url)] ∧
    (processDep root net st url).1.events =
      st.events ++ [CacheEvent.create (joinPath root (filepathBase url)),
                    CacheEvent.fetch url] ∧
    (processDep root net st url).2.isSome = true ∧
    processDeps root net st (url :: rest) = processDep root net st url := by
  have hb : (processDep root net st url).1.files =
      st.files ++ [joinPath root (filepathBase url)] ∧
    (processDep root net st url).1.events =
      st.events ++ [CacheEvent.create (joinPath root (filepathBase url)),
                    CacheEvent.fetch url] ∧
    (processDep root net st url).2.isSome = true := by
    simp only [processDep]
    rw [if_neg (by simpa using hmem)]
    rcases hfail with h | h <;> rw [h] <;> simp
  refine ⟨hb.1, hb.2.1, hb.2.2, ?_⟩
  have hs := hb.2.2
  simp only [processDeps, ht]
  rw [if_neg hl]
  rcases h2 : processDep root net st url with ⟨stx, err⟩
  rw [h2] at hs
  cases err with
  | none => simp at hs
  | some e => rfl

/-- Witness for c3 at a concrete failing fetch. -/
theorem c3_cache_failure_leaves_file_witness :
    (({ files := [], events := [] } : CacheState)).files.contains
      (joinPath "/cache" (filepathBase "http://x/b.tgz")) = false ∧
    trimSpace "http://x/b.tgz" = "http://x/b.tgz" ∧
    ("http://x/b.tgz").length ≠ 0 ∧
    ((fun _ => FetchOutcome.getErr) "http://x/b.tgz" = FetchOutcome.getErr ∨
      (fun _ => FetchOutcome.getErr) "http://x/b.tgz" = FetchOutcome.copyErr) ∧
    ((processDep "/cache" (fun _ => FetchOutcome.getErr)
        { files := [], events := [] } "http://x/b.tgz").1.files =
      [] ++ [joinPath "/cache" (filepathBase "http://x/b.tgz")] ∧
    (processDep "/cache" (fun _ => FetchOutcome.getErr)
        { files := [], events := [] } "http://x/b.tgz").1.events =
      [] ++ [CacheEvent.create (joinPath "/cache" (filepathBase "http://x/b.tgz")),
             CacheEvent.fetch "http://x/b.tgz"] ∧
    (processDep "/cache" (fun _ => FetchOutcome.getErr)
        { files := [], events := [] } "http://x/b.tgz").2.isSome = true ∧
    processDeps "/cache" (fun _ => FetchOutcome.getErr)
        { files := [], events := [] } ["http://x/b.tgz", "leftover"] =
      processDep "/cache" (fun _ => FetchOutcome.getErr)
        { files := [], events := [] } "http://x/b.tgz") :=
  ⟨by decide, by decide, by decide, Or.inl rfl,
    c3_cache_failure_leaves_file "/cache" "http://x/b.tgz"
      (fun _ => FetchOutcome.getErr) { files := [], events := [] } ["leftover"]
      (by decide) (by decide) (by decide) (Or.inl rfl)⟩

/-! ## xgo.go : legacy-mode mount planning (compile, lines 263-307) -/

/-- Character-list prefix test (strings.HasPrefix / the deprecated
filepath.HasPrefix), implemented so the kernel can evaluate it. -/
def isPre (p s : String) : Bool := p.data.isPrefixOf s.data

/-- strings.TrimPrefix. -/
def stripLeading (p pre : String) : String :=
  if isPre pre p then String.mk (p.data.drop pre.data.length) else p

/-- One entry encountered by the filepath.Walk over a workspace src
directory, carrying the ambient outcomes the loop body inspects: whether the
walk callback received an access error, whether the entry is a symbolic
link, the result of filepath.EvalSymlinks, and whether os.Stat on the
resolved target succeeded with a directory. -/
structure WalkEntry where
  path : String
  accessErr : Bool
  isSymlink : Bool
  resolved : Option String
  resolvedIsDir : Bool
deriving DecidableEq, Repr

/-- The skip chain of the walk callback (lines 271-291): returns the
resolved target exactly when the entry is an accessible symlink that
resolves to a directory lying outside the mount root. -/
def symlinkTarget (sources : String) (e : WalkEntry) : Option String :=
  if e.accessErr then none
  else if ¬ e.isSymlink then none
  else
    match e.resolved with
    | none => none
    | some target =>
      if ¬ e.resolvedIsDir then none
      else if isPre sources target then none
      else some target

/-- The three parallel sequences locals, mounts, paths of the legacy mount
plan. -/
structure MountPlan where
  locals : List String
  mounts : List String
  paths : List String
deriving DecidableEq, Repr

/-- Lines 293-297: record an escaping symlink as a new slot; the slot index
is the length of locals after the append, as strconv.Itoa(len(locals)). -/
def addSymlinkMount (sources : String) (mp : MountPlan) (e : WalkEntry) : MountPlan :=
  match symlinkTarget sources e with
  | none => mp
  | some target =>
    let locals := mp.locals ++ [target]
    { locals := locals,
      mounts := mp.mounts ++
        ["/ext-go/" ++ toString locals.length ++ "/src" ++ stripLeading e.path sources],
      paths := mp.paths ++ ["/ext-go/" ++ toString locals.length] }

/-- Lines 267-306: process one GOPATH entry: walk its src subdirectory for
escaping symlinks, then append the final mapping for the mount root itself
as its own new slot (lines 302-305). -/
def addRootMounts (mp : MountPlan) (root : String × List WalkEntry) : MountPlan :=
  let sources := joinPath root.1 "src"
  let mp1 := (root.2).foldl (addSymlinkMount sources) mp
  let locals := mp1.locals ++ [sources]
  { locals := locals,
    mounts := mp1.mounts ++ ["/ext-go/" ++ toString locals.length ++ "/src"],
    paths := mp1.paths ++ ["/ext-go/" ++ toString locals.length] }

/-- The whole legacy mount-planning pass over the GOPATH entries with their
walk results, starting from the empty plan. -/
def planLegacyMounts (roots : List (String × List WalkEntry)) : MountPlan :=
  roots.foldl addRootMounts { locals := [], mounts := [], paths := [] }

/-- The slot invariant: the three sequences have equal length and the i-th
allocated search-path slot carries index i+1, so indices start at 1, are
strictly increasing and globally unique. -/
def MountPlan.slotWf (mp : MountPlan) : Prop :=
  mp.mounts.length = mp.locals.length ∧
  mp.paths.length = mp.locals.length ∧
  mp.paths = (List.range mp.locals.length).map (fun i => "/ext-go/" ++ toString (i + 1))

theorem slotWf_push (mp : MountPlan) (x m : String) (h : mp.slotWf) :
    MountPlan.slotWf
      { locals := mp.locals ++ [x], mounts := mp.mounts ++ [m],
        paths := mp.paths ++ ["/ext-go/" ++ toString (mp.locals.length + 1)] } := by
  obtain ⟨h1, h2, h3⟩ := h
  refine ⟨by simp [h1], by simp [h2], ?_⟩
  simp only [List.length_append, List.length_cons, List.length_nil, Nat.zero_add]
  rw [h3, List.range_succ, List.map_append]
  simp

theorem slotWf_addSymlinkMount (sources : String) (mp : MountPlan) (e : WalkEntry)
    (h : mp.slotWf) : (addSymlinkMount sources mp e).slotWf := by
  unfold addSymlinkMount
  cases symlinkTarget sources e with
  | none => exact h
  | some target =>
    have hp := slotWf_push mp target
      ("/ext-go/" ++ toString (mp.locals.length + 1) ++ "/src" ++
        stripLeading e.path sources) h
    simpa using hp

theorem slotWf_foldl_symlinks (sources : String) (es : List WalkEntry)
    (mp : MountPlan) (h : mp.slotWf) :
    (es.foldl (addSymlinkMount sources) mp).slotWf := by
  induction es generalizing mp with
  | nil => simpa using h
  | cons e rest ih => exact ih _ (slotWf_addSymlinkMount sources mp e h)

theorem slotWf_addRootMounts (mp : MountPlan) (r : String × List WalkEntry)
    (h : mp.slotWf) : (addRootMounts mp r).slotWf := by
  unfold addRootMounts
  have h1 := slotWf_foldl_symlinks (joinPath r.1 "src") r.2 mp h
  have hp := slotWf_push (r.2.foldl (addSymlinkMount (joinPath r.1 "src")) mp)
    (joinPath r.1 "src")
    ("/ext-go/" ++
      toString ((r.2.foldl (addSymlinkMount (joinPath r.1 "src")) mp).locals.length + 1)
      ++ "/src") h1
  simpa using hp

theorem slotWf_foldl_roots (roots : List (String × List WalkEntry)) (mp : MountPlan)
    (h : mp.slotWf) : (roots.foldl addRootMounts mp).slotWf := by
  induction roots generalizing mp with
  | nil => simpa using h
  | cons r rest ih => exact ih _ (slotWf_addRootMounts mp r h)

/-- C4: throughout a legacy mount-planning pass the three parallel
sequences have equal length and the i-th slot carries index i+1 in its
isolated search-path prefix, so slot indices start at 1, are strictly
increasing, and are globally unique across all search-path entries. -/
theorem c4_mount_slot_invariant (roots : List (String × List WalkEntry)) :
    (planLegacyMounts roots).slotWf := by
  apply slotWf_foldl_roots
  exact ⟨rfl, rfl, by simp⟩

theorem foldl_addSymlinkMount_of_none (sources : String) (es : List WalkEntry)
    (mp : MountPlan) (h : ∀ e ∈ es, symlinkTarget sources e = none) :
    es.foldl (addSymlinkMount sources) mp = mp := by
  induction es generalizing mp with
  | nil => rfl
  | cons e rest ih =>
    have he : addSymlinkMount sources mp e = mp := by
      unfold addSymlinkMount
      rw [h e (by simp)]
    simp only [List.foldl_cons, he]
    exact ih mp (fun x hx => h x (by simp [hx]))

theorem locals_foldl_addRootMounts_of_none (roots : List (String × List WalkEntry))
    (mp : MountPlan)
    (h : ∀ r ∈ roots, ∀ e ∈ r.2, symlinkTarget (joinPath r.1 "src") e = none) :
    (roots.foldl addRootMounts mp).locals =
      mp.locals ++ roots.map (fun r => joinPath r.1 "src") := by
  induction roots generalizing mp with
  | nil => simp
  | cons r rest ih =>
    have hr : (addRootMounts mp r).locals = mp.locals ++ [joinPath r.1 "src"] := by
      simp only [addRootMounts]
      rw [foldl_addSymlinkMount_of_none (joinPath r.1 "src") r.2 mp
        (h r (by simp))]
    simp only [List.foldl_cons]
    rw [ih (addRootMounts mp r) (fun x hx => h x (by simp [hx])), hr]
    simp

/-- C5: for a legacy workspace whose walks discover no escaping symlink,
the plan has exactly one slot per search-path entry, namely the src
subdirectory of each root, in input order. -/
theorem c5_no_escaping_symlinks (roots : List (String × List WalkEntry))
    (h : ∀ r ∈ roots, ∀ e ∈ r.2, symlinkTarget (joinPath r.1 "src") e = none) :
    (planLegacyMounts roots).locals = roots.map (fun r => joinPath r.1 "src") ∧
    (planLegacyMounts roots).mounts.length = roots.length ∧
    (planLegacyMounts roots).paths.length = roots.length := by
  have hl : (planLegacyMounts roots).locals =
      roots.map (fun r => joinPath r.1 "src") := by
    have := locals_foldl_addRootMounts_of_none roots
      { locals := [], mounts := [], paths := [] } h
    simpa [planLegacyMounts] using this
  have hwf : (planLegacyMounts roots).slotWf :=
    slotWf_foldl_roots roots { locals := [], mounts := [], paths := [] }
      ⟨rfl, rfl, by simp⟩
  have hlen : (planLegacyMounts roots).locals.length = roots.length := by
    rw [hl]; simp
  exact ⟨hl, by rw [hwf.1, hlen], by rw [hwf.2.1, hlen]⟩

/-- Witness for c5: one root whose walk finds a symlink resolving inside
the mount root (skipped) and a second root with a failing resolution. -/
theorem c5_no_escaping_symlinks_witness :
    (∀ r ∈ [("/go",
        [({ path := "/go/src/a", accessErr := false, isSymlink := true,
            resolved := some "/go/src/b", resolvedIsDir := true } : WalkEntry)]),
      ("/alt",
        [({ path := "/alt/src/c", accessErr := false, isSymlink := true,
            resolved := none, resolvedIsDir := false } : WalkEntry)])],
      ∀ e ∈ r.2, symlinkTarget (joinPath r.1 "src") e = none) ∧
    (planLegacyMounts [("/go",
        [{ path := "/go/src/a", accessErr := false, isSymlink := true,
           resolved := some "/go/src/b", resolvedIsDir := true }]),
      ("/alt",
        [{ path := "/alt/src/c", accessErr := false, isSymlink := true,
           resolved := none, resolvedIsDir := false }])]).locals =
      [("/go",
        [({ path := "/go/src/a", accessErr := false, isSymlink := true,
            resolved := some "/go/src/b", resolvedIsDir := true } : WalkEntry)]),
       ("/alt",
        [({ path := "/alt/src/c", accessErr := false, isSymlink := true,
            resolved := none, resolvedIsDir := false } : WalkEntry)])].map
        (fun r => joinPath r.1 "src") ∧
    (planLegacyMounts [("/go",
        [{ path := "/go/src/a", accessErr := false, isSymlink := true,
           resolved := some "/go/src/b", resolvedIsDir := true }]),
      ("/alt",
        [{ path := "/alt/src/c", accessErr := false, isSymlink := true,
           resolved := none, resolvedIsDir := false }])]).mounts.length = 2 ∧
    (planLegacyMounts [("/go",
        [{ path := "/go/src/a", accessErr := false, isSymlink := true,
           resolved := some "/go/src/b", resolvedIsDir := true }]),
      ("/alt",
        [{ path := "/alt/src/c", accessErr := false, isSymlink := true,
           resolved := none, resolvedIsDir := false }])]).paths.length = 2 :=
  ⟨by decide,
    c5_no_escaping_symlinks _ (by decide)⟩

/-! ## xgo.go : module-mode vendor check (compile, lines 346-352) -/

/-- Result of os.Stat: the FileInfo on success, or a stat error. -/
structure FsInfo where
  isDir : Bool
deriving DecidableEq, Repr

/-- Stat errors distinguished by os.IsNotExist. -/
inductive StatErr
  | notExist
  | other
deriving DecidableEq, Repr

/-- os.IsNotExist over an optional error value. -/
def osIsNotExist : Option StatErr → Bool
  | some StatErr.notExist => true
  | _ => false

/-- Result of the vendor-directory check: either the check completes and
reports whether FLAG_MOD=vendor is appended, or the code dereferences the
nil FileInfo returned alongside a stat error. -/
inductive VendorCheck
  | flagMod (set : Bool)
  | nilDeref
deriving DecidableEq, Repr

/-- Lines 347-352: vendorfolder, err := os.Stat(vendorPath); the flag is
appended when !os.IsNotExist(err) && vendorfolder.Mode().IsDir().  When err
is a stat error other than non-existence, vendorfolder is nil and the
Mode() call dereferences it. -/
def vendorFlagCheck (stat : Except StatErr FsInfo) : VendorCheck :=
  let vendorfolder : Option FsInfo := stat.toOption
  let err : Option StatErr :=
    match stat with
    | Except.ok _ => none
    | Except.error e => some e
  if osIsNotExist err then VendorCheck.flagMod false
  else
    match vendorfolder with
    | some info => VendorCheck.flagMod info.isDir
    | none => VendorCheck.nilDeref

/-- C7: the vendor flag is set exactly when the vendor path stats as a
directory, it is not set on non-existence, but a stat error other than
non-existence makes the check dereference a nil FileInfo instead of
completing, contradicting the claim that every stat outcome is handled. -/
theorem c7_vendor_check_faults :
    vendorFlagCheck (Except.ok { isDir := true }) = VendorCheck.flagMod true ∧
    vendorFlagCheck (Except.ok { isDir := false }) = VendorCheck.flagMod false ∧
    vendorFlagCheck (Except.error StatErr.notExist) = VendorCheck.flagMod false ∧
    vendorFlagCheck (Except.error StatErr.other) = VendorCheck.nilDeref := by
  exact ⟨rfl, rfl, rfl, rfl⟩

/-! ## xgo.go : workspace resolver mode decision (compile, lines 233-250) -/

/-- A source location is local when it is absolute or begins with a
relative-path marker (line 233). -/
def isLocalRepo (repo : String) : Bool :=
  isPre "/" repo || isPre "." repo

/-- Outcome of the local mode decision: a resolution failure, or the final
Repository value together with the module-mode flag. -/
inductive ModeDecision
  | resolveErr
  | decided (repository : String) (usesModules : Bool)
deriving DecidableEq, Repr

/-- Lines 234-247 of compile, for a local repository: check for go.mod at
the original path; if absent, resolve the import path, overwrite
config.Repository with it, and re-check for go.mod at the NEW value of
config.Repository (the derived import identity).  ex gives the result of
fileExists for each path; resolve gives the result of resolveImportPath. -/
def decideLocalMode (ex : String → Bool) (resolve : String → Option String)
    (repo : String) : ModeDecision :=
  if ex (joinPath repo "go.mod") then ModeDecision.decided repo true
  else
    match resolve repo with
    | none => ModeDecision.resolveErr
    | some imp =>
      if ex (joinPath imp "go.mod") then ModeDecision.decided imp true
      else ModeDecision.decided imp false

/-- Modelled from the spec (section 4.2): the same decision but with the
re-check performed against the ORIGINAL local path, as the claim states;
kept only for comparison with decideLocalMode, which is the source
behaviour. -/
def decideLocalModeOriginalRecheck (ex : String → Bool)
    (resolve : String → Option String) (repo : String) : ModeDecision :=
  if ex (joinPath repo "go.mod") then ModeDecision.decided repo true
  else
    match resolve repo with
    | none => ModeDecision.resolveErr
    | some imp =>
      if ex (joinPath repo "go.mod") then ModeDecision.decided imp true
      else ModeDecision.decided imp false

/-- A concrete filesystem for the C1 counterexample: go.mod exists only
under the derived import identity, not under the original local path. -/
def exFsC1 : String → Bool := fun p => p = "example.com/app/go.mod"

/-- A concrete import-path resolution for the C1 counterexample. -/
def exResolveC1 : String → Option String := fun _ => some "example.com/app"

/-- C1 counterexample: the code re-checks the manifest at the derived
identity of the import and turns on module mode, while a re-check using the
original local path (as the claim states) would leave legacy mode; the
original path is local and its own manifest check is false. -/
theorem c1_counterexample_derived_recheck :
    isLocalRepo "./app" = true ∧
    exFsC1 (joinPath "./app" "go.mod") = false ∧
    decideLocalMode exFsC1 exResolveC1 "./app" =
      ModeDecision.decided "example.com/app" true ∧
    decideLocalModeOriginalRecheck exFsC1 exResolveC1 "./app" =
      ModeDecision.decided "example.com/app" false := by
  refine ⟨by decide, by decide, ?_, ?_⟩ <;> decide

/-- C1 amended: after a failed manifest check at the original local path
and a successful import-path resolution, the final mode is decided by
re-checking the manifest at the DERIVED import identity now stored in the
Repository field. -/
theorem c1_amended_recheck_uses_derived (ex : String → Bool)
    (resolve : String → Option String) (repo imp : String)
    (h1 : ex (joinPath repo "go.mod") = false)
    (h2 : resolve repo = some imp) :
    decideLocalMode ex resolve repo =
      ModeDecision.decided imp (ex (joinPath imp "go.mod")) := by
  unfold decideLocalMode
  rw [if_neg (by simp [h1]), h2]
  cases hx : ex (joinPath imp "go.mod") <;> simp [hx]

/-- Witness for the amended C1 at concrete inputs. -/
theorem c1_amended_recheck_uses_derived_witness :
    exFsC1 (joinPath "./app2" "go.mod") = false ∧
    exResolveC1 "./app2" = some "example.com/app" ∧
    decideLocalMode exFsC1 exResolveC1 "./app2" =
      ModeDecision.decided "example.com/app"
        (exFsC1 (joinPath "example.com/app" "go.mod")) :=
  ⟨by decide, rfl,
    c1_amended_recheck_uses_derived exFsC1 exResolveC1 "./app2" "example.com/app"
      (by decide) rfl⟩

/-! ## util : FanOutWriter, LogWriter and the run wrapper (xgo.go lines 439-450)

The two sinks of run are modelled as transformers of one observable
RunState: the ordered list of writes delivered to the live log sink and the
content of the in-memory standard-error buffer. -/

/-- Observable state of the two output sinks of run. -/
structure RunState where
  live : List String
  buf : String
deriving DecidableEq, Repr

/-- FanOutWriter.Write: iterate over the writers in order, returning early
with the first failing write, otherwise returning the result of the last
write (or the zero values for an empty writer list). -/
def fanOutWrite : List (RunState → RunState × Nat × Option String) → RunState →
    RunState × Nat × Option String
  | [], s => (s, 0, none)
  | w :: rest, s =>
    match w s with
    | (s1, n, some e) => (s1, n, some e)
    | (s1, n, none) =>
      match rest with
      | [] => (s1, n, none)
      | _ :: _ => fanOutWrite rest s1

/-- LogWriter.Write for a payload p: deliver to the live sink, report the
full length, never fail. -/
def logWriterW (p : String) : RunState → RunState × Nat × Option String :=
  fun s => ({ s with live := s.live ++ [p] }, p.length, none)

/-- bytes.Buffer.Write for a payload p: append to the buffer, never fail. -/
def stdErrBuffW (p : String) : RunState → RunState × Nat × Option String :=
  fun s => ({ s with buf := s.buf ++ p }, p.length, none)

/-- One chunk of child-process output. -/
inductive OutChunk
  | stdout (p : String)
  | stderr (p : String)
deriving DecidableEq, Repr

/-- The wiring of run (lines 440-442): cmd.Stdout is the LogWriter alone;
cmd.Stderr is the fan-out over the LogWriter and the buffer. -/
def writeChunk (s : RunState) (c : OutChunk) : RunState :=
  match c with
  | OutChunk.stdout p => (logWriterW p s).1
  | OutChunk.stderr p => (fanOutWrite [logWriterW p, stdErrBuffW p] s).1

/-- The sink state after the child process has emitted a list of chunks. -/
def runProcessOutput (chunks : List OutChunk) : RunState :=
  chunks.foldl writeChunk { live := [], buf := "" }

/-- Line 446: a failing cmd.Run is wrapped together with the buffered
standard-error text. -/
def wrapWithStdErr (procErr : Option String) (buf : String) : Option String :=
  match procErr with
  | none => none
  | some e => some (e ++ ": " ++ buf)

/-- Result of the cancellable execution: the returned error and whether the
runner terminated the child process. -/
structure RunCtxResult where
  err : Option String
  childKilled : Bool
deriving DecidableEq, Repr

/-- Modelled from the spec: util.RunCtx is not among the provided sources.
Section 4.5 specifies that when the cancellation signal fires before the
command completes, the runner terminates the child process and returns a
cancellation error instead of waiting indefinitely; otherwise the result of
the callback is returned. -/
def runCtx (cancelledBeforeCompletion : Bool) (callbackErr : Option String) :
    RunCtxResult :=
  if cancelledBeforeCompletion then
    { err := some "context canceled", childKilled := true }
  else { err := callbackErr, childKilled := false }

/-- run (lines 439-450) over the observable process behaviour: route the
output chunks through the wired sinks, then produce the final error through
the cancellable wrapper, wrapping a non-cancelled process failure together
with the buffered standard-error text. -/
def runCmd (cancelledBeforeCompletion : Bool) (chunks : List OutChunk)
    (procErr : Option String) : RunCtxResult :=
  runCtx cancelledBeforeCompletion
    (wrapWithStdErr procErr (runProcessOutput chunks).buf)

/-- C8: a stdout chunk reaches only the live sink; a stderr chunk reaches
both the live sink and the buffer; the fan-out short-circuits on the first
failing sink, never invoking later writers; a non-cancelled process failure
is returned wrapped with the full buffered standard-error text, and on
success no error is returned. -/
theorem c8_run_output_routing (s s1 : RunState) (p : String) (n : Nat) (e : String)
    (w1 w2 : RunState → RunState × Nat × Option String)
    (chunks : List OutChunk) (msg : String)
    (hfail : w1 s = (s1, n, some e)) :
    writeChunk s (OutChunk.stdout p) = { s with live := s.live ++ [p] } ∧
    writeChunk s (OutChunk.stderr p) =
      { live := s.live ++ [p], buf := s.buf ++ p } ∧
    fanOutWrite [w1, w2] s = (s1, n, some e) ∧
    (runCmd false chunks (some msg)).err =
      some (msg ++ ": " ++ (runProcessOutput chunks).buf) ∧
    (runCmd false chunks none).err = none := by
  refine ⟨rfl, rfl, ?_, rfl, rfl⟩
  unfold fanOutWrite
  rw [hfail]

/-- A sink that always fails, for the c8 witness. -/
def failingSink : RunState → RunState × Nat × Option String :=
  fun s => (s, 0, some "sink failed")

/-- Witness for c8 at concrete inputs. -/
theorem c8_run_output_routing_witness :
    failingSink { live := [], buf := "" } =
      ({ live := [], buf := "" }, 0, some "sink failed") ∧
    (writeChunk { live := [], buf := "" } (OutChunk.stdout "hello") =
      { live := ["hello"], buf := "" } ∧
    writeChunk { live := [], buf := "" } (OutChunk.stderr "oops") =
      { live := ["oops"], buf := "oops" } ∧
    fanOutWrite [failingSink, stdErrBuffW "oops"] { live := [], buf := "" } =
      ({ live := [], buf := "" }, 0, some "sink failed") ∧
    (runCmd false [OutChunk.stderr "oops"] (some "exit status 1")).err =
      some ("exit status 1" ++ ": " ++
        (runProcessOutput [OutChunk.stderr "oops"]).buf) ∧
    (runCmd false [OutChunk.stderr "oops"] none).err = none) := by
  constructor
  · rfl
  · have h := c8_run_output_routing { live := [], buf := "" } { live := [], buf := "" }
      "oops" 0 "sink failed" failingSink (stdErrBuffW "oops")
      [OutChunk.stderr "oops"] "exit status 1" rfl
    refine ⟨?_, h.2.1, h.2.2.1, h.2.2.2.1, h.2.2.2.2⟩
    exact c8_run_output_routing { live := [], buf := "" } { live := [], buf := "" }
      "hello" 0 "sink failed" failingSink (stdErrBuffW "oops")
      [OutChunk.stderr "oops"] "exit status 1" rfl |>.1

/-- C9: whenever the cancellation signal fires before the child process
completes, the runner terminates the child and returns a cancellation
error, never a success result. -/
theorem c9_cancellation (chunks : List OutChunk) (procErr : Option String) :
    (runCmd true chunks procErr).err = some "context canceled" ∧
    (runCmd true chunks procErr).childKilled = true ∧
    (runCmd true chunks procErr).err ≠ none := by
  refine ⟨rfl, rfl, by simp [runCmd, runCtx]⟩

end Xgolib
